import Mathlib

/-!
GoGameSelfPlay (go/game_selfplay.cc)

A shallow embedding of the self-play / training driver.  The collaborators
whose code lives in other translation units (the board state `GoState`, the
agents behind `_ai`, the random generator `_rng`, the move codec, the feature
extractor, the shared read/write buffer) are taken as parameters: the driver
is verified against every implementation of them.
-/

namespace GoGameSelfPlay

/-- Options of one game (`GameOptions`), as far as the driver reads them. -/
structure GameOptions where
  mode : String
  use_mcts : Bool
  num_future_actions : Nat
  seed : Nat
  verbose : Bool

/-- One record of the shared buffer (`elf::SharedRWBuffer::Record`). -/
structure Record (Reward : Type) where
  game_id : Int
  reward : Reward
  content : String

/-- The fields of the game-state message that the training branch of `Act`
assigns before `SendDataWaitReply`. -/
structure TrainSample (Reward Feat Action : Type) where
  move_idx : Int
  winner : Reward
  aug_code : Nat
  s : Feat
  offline_a : List Action

/-- Externally visible actions of one `Act` call, in program order. -/
inductive Event (Coord Reward Feat Action : Type) where
  | forward (c : Coord) (accepted : Bool)
  | restartLog (c : Coord) (ply : Int)
  | insert (r : Record Reward) (ok : Bool)
  | insertErrorLog (lastError : String)
  | gameEnd
  | sendDataWaitReply (gs : TrainSample Reward Feat Action)

/-- The collaborators of the driver: the board state (`forward`, `GetPly`,
`Reset`, `Evaluate`, the feature extractor), the agent behind `_ai`, the
generator `_rng`, the move codec, `elf_utils::get_seed` and `BOARD_SIZE`. -/
structure Collab (Coord State AI Rng Reward Feat Action : Type) where
  BOARD_SIZE : Int
  forward : State → Coord → Bool × State
  GetPly : State → Int
  Reset : State → State
  Evaluate : State → (Rng → Nat × Rng) → Rng → Reward × Rng
  Extract : State → Nat → Feat
  Coord2Action : State → Nat → Coord → Action
  rngSeed : Nat → Rng
  rngNext : Rng → Nat × Rng
  aiAct : AI → State → Bool → Coord × AI
  GameEnd : AI → AI
  newMCTSGoAI : AI
  newDirectPredictAI : AI
  coords2sgfstr : List Coord → String
  sgfstr2coords : String → List Coord
  /-- Modelled from the spec: `elf_utils::get_seed`, whose code is not among the
  sources.  The spec has the seed "seeded deterministically from the game-slot
  index", so it is a function of the slot index alone. -/
  get_seed : Int → Nat

/-- The shared read/write buffer (`elf::SharedRWBuffer`) with its sampler. -/
structure RWBuffer (Buf Reward : Type) where
  Insert : Buf → Record Reward → Bool × Buf
  LastError : Buf → String
  sample : Buf → Record Reward × Buf

/-- The members of `GoGameSelfPlay` that the code reads or writes.  `_ai` is
`none` for the null pointer.  `_game_idx` holds the value of a 32-bit `int`
(the constructor assigns it from `int game_idx`), so it lies in
`[-2 ^ 31, 2 ^ 31)`; `_game_idx++` is `wrapInt32 (_game_idx + 1)`. -/
structure Driver (Coord State AI Rng : Type) where
  _options : GameOptions
  _game_idx : Int
  _seed : Nat
  _rng : Rng
  _ai : Option AI
  _state : State
  _moves : List Coord

/-- What can stop `Act` or `Init` before it returns. -/
inductive Fault where
  | unknownMode
  | remainderByZero
  deriving DecidableEq, Repr

section Code

variable {Coord State AI Rng Reward Feat Action Buf : Type}

/-- The value a 32-bit two's complement `int` holds for the mathematical
integer `x`: `x` itself inside `[-2 ^ 31, 2 ^ 31)`, wrapped around outside. -/
def wrapInt32 (x : Int) : Int := (x + 2 ^ 31) % 2 ^ 32 - 2 ^ 31

/-- The seed chosen by the constructor: `get_seed(game_idx)` when
`options.seed == 0`, else `options.seed`. -/
def seedOf (C : Collab Coord State AI Rng Reward Feat Action)
    (game_idx : Int) (options : GameOptions) : Nat :=
  if options.seed = 0 then C.get_seed game_idx else options.seed

/-- The constructor `GoGameSelfPlay::GoGameSelfPlay`.  `game_idx` is the value
of its `int` argument, `s0` is the default-constructed `GoState` member; `_ai`
starts as the null pointer and `_moves` empty. -/
def mk (C : Collab Coord State AI Rng Reward Feat Action)
    (game_idx : Int) (options : GameOptions) (s0 : State) :
    Driver Coord State AI Rng :=
  { _options := options
    _game_idx := game_idx
    _seed := seedOf C game_idx options
    _rng := C.rngSeed (seedOf C game_idx options)
    _ai := none
    _state := s0
    _moves := [] }

/-- The method `GoGameSelfPlay::Init` (the `ai_comm` argument is non-null, as
its `assert` requires). -/
def Init (C : Collab Coord State AI Rng Reward Feat Action)
    (d : Driver Coord State AI Rng) : Except Fault (Driver Coord State AI Rng) :=
  if d._options.mode = "selfplay" then
    if d._options.use_mcts then
      .ok { d with _ai := some C.newMCTSGoAI }
    else
      .ok { d with _ai := some C.newDirectPredictAI }
  else if d._options.mode = "train" then
    .ok d
  else
    .error Fault.unknownMode

/-- The lambda `[&]() -> unsigned int { return _rng(); }` handed to
`Evaluate`. -/
def rngThunk (C : Collab Coord State AI Rng Reward Feat Action) (g : Rng) : Nat × Rng :=
  ((C.rngNext g).1 % 2 ^ 32, (C.rngNext g).2)

/-- The `size_t` expression `moves.size() - num_future_actions + 1`. -/
def cutModulus (L N : Nat) : Nat :=
  ((L % 2 ^ 64 + (2 ^ 64 - N % 2 ^ 64)) % 2 ^ 64 + 1) % 2 ^ 64

/-- The unchecked read `moves[i]`: outside the vector it yields whatever
`wild` holds at that index. -/
def readMove (moves : List Coord) (wild : Nat → Coord) (i : Nat) : Coord :=
  match moves.get? i with
  | some c => c
  | none => wild i

/-- Indices read by the loop `for (i = 0; i < move_to; ++i) forward(moves[i])`. -/
def replayIndices (move_to : Nat) : List Nat := List.range move_to

/-- Indices read by the loop filling `offline_a`: `move_to + i` for `i < N`. -/
def windowIndices (move_to N : Nat) : List Nat := (List.range N).map (fun i => move_to + i)

/-- The replay loop of the training branch: `forward` on each read move, its
return value ignored. -/
def replay (C : Collab Coord State AI Rng Reward Feat Action)
    (s : State) (cs : List Coord) : State :=
  cs.foldl (fun st c => (C.forward st c).2) s

/-- The generation branch of `Act` (`_ai != nullptr`, with `ai` the agent).
The events list what the branch does to the outside, in program order; the
`cout` lines of the restart are one `restartLog` event. -/
def actSelfPlay (C : Collab Coord State AI Rng Reward Feat Action) (B : RWBuffer Buf Reward)
    (done : Bool) (d : Driver Coord State AI Rng) (ai : AI) (b : Buf) :
    Driver Coord State AI Rng × Buf × List (Event Coord Reward Feat Action) :=
  let (c, ai1) := C.aiAct ai d._state done
  let (ok, s1) := C.forward d._state c
  if !ok || decide (C.GetPly s1 > C.BOARD_SIZE * C.BOARD_SIZE) then
    let (reward, g1) := C.Evaluate s1 (rngThunk C) d._rng
    let r : Record Reward :=
      { game_id := d._game_idx, reward := reward, content := C.coords2sgfstr d._moves }
    let (inserted, b1) := B.Insert b r
    let errs : List (Event Coord Reward Feat Action) :=
      if inserted then [] else [Event.insertErrorLog (B.LastError b1)]
    ({ d with _state := C.Reset s1, _moves := [], _ai := some (C.GameEnd ai1),
              _rng := g1, _game_idx := wrapInt32 (d._game_idx + 1) },
     b1,
     [Event.forward c ok, Event.restartLog c (C.GetPly s1), Event.insert r inserted]
       ++ errs ++ [Event.gameEnd])
  else
    ({ d with _state := s1, _moves := d._moves ++ [c], _ai := some ai1 }, b,
     [Event.forward c ok])

/-- The training branch of `Act` (`_ai == nullptr`).  The modulus is computed
in `size_t` as in the source (`cutModulus`); a zero modulus has no defined
remainder and is reported as `Fault.remainderByZero`.  The `int` variables
`move_to`, `i` and `code` are kept as natural numbers: the remainder is
non-negative, and its narrowing to `int` keeps the value for every move list
shorter than `2 ^ 31`. -/
def actTrain (C : Collab Coord State AI Rng Reward Feat Action) (B : RWBuffer Buf Reward)
    (wild : Nat → Coord) (d : Driver Coord State AI Rng) (b : Buf) :
    Except Fault (Driver Coord State AI Rng × Buf × List (Event Coord Reward Feat Action)) :=
  let (r, b1) := B.sample b
  let moves := C.sgfstr2coords r.content
  let winner := r.reward
  let (v, g1) := C.rngNext d._rng
  let m := cutModulus moves.length d._options.num_future_actions
  if m = 0 then .error Fault.remainderByZero
  else
    let move_to := v % m
    let s1 := replay C (C.Reset d._state) ((replayIndices move_to).map (readMove moves wild))
    let (v2, g2) := C.rngNext g1
    let code := v2 % 8
    let gs : TrainSample Reward Feat Action :=
      { move_idx := C.GetPly s1
        winner := winner
        aug_code := code
        s := C.Extract s1 code
        offline_a := (windowIndices move_to d._options.num_future_actions).map
          (fun i => C.Coord2Action s1 code (readMove moves wild i)) }
    .ok ({ d with _state := s1, _rng := g2 }, b1, [Event.sendDataWaitReply gs])

/-- The method `GoGameSelfPlay::Act`. -/
def Act (C : Collab Coord State AI Rng Reward Feat Action) (B : RWBuffer Buf Reward)
    (wild : Nat → Coord) (done : Bool) (d : Driver Coord State AI Rng) (b : Buf) :
    Except Fault (Driver Coord State AI Rng × Buf × List (Event Coord Reward Feat Action)) :=
  match d._ai with
  | some ai => .ok (actSelfPlay C B done d ai b)
  | none => actTrain C B wild d b

/-- Repeated `Act`, one call per entry of `signals`, the events concatenated. -/
def runActs (C : Collab Coord State AI Rng Reward Feat Action) (B : RWBuffer Buf Reward)
    (wild : Nat → Coord) :
    List Bool → Driver Coord State AI Rng → Buf →
    Except Fault (Driver Coord State AI Rng × Buf × List (Event Coord Reward Feat Action))
  | [], d, b => .ok (d, b, [])
  | done :: rest, d, b =>
    match Act C B wild done d b with
    | .error e => .error e
    | .ok (d1, b1, ev1) =>
      match runActs C B wild rest d1 b1 with
      | .error e => .error e
      | .ok (d2, b2, ev2) => .ok (d2, b2, ev1 ++ ev2)

/-- The records handed to `_rw_buffer->Insert`, in order. -/
def insertedRecords (ev : List (Event Coord Reward Feat Action)) : List (Record Reward) :=
  ev.filterMap (fun e => match e with
    | Event.insert r _ => some r
    | _ => none)

/-- The moves for which `_state.forward` returned true, in order. -/
def acceptedMoves (ev : List (Event Coord Reward Feat Action)) : List Coord :=
  ev.filterMap (fun e => match e with
    | Event.forward c true => some c
    | _ => none)

/-- The number of `GameEnd` notifications sent to the agent. -/
def gameEndCount (ev : List (Event Coord Reward Feat Action)) : Nat :=
  ev.countP (fun e => match e with
    | Event.gameEnd => true
    | _ => false)

/-- The test of the generation branch:
`! _state.forward(c) || _state.GetPly() > BOARD_SIZE * BOARD_SIZE`, for the
move the agent chooses. -/
def restartTest (C : Collab Coord State AI Rng Reward Feat Action)
    (d : Driver Coord State AI Rng) (ai : AI) (done : Bool) : Prop :=
  (C.forward d._state (C.aiAct ai d._state done).1).1 = false ∨
    C.GetPly (C.forward d._state (C.aiAct ai d._state done).1).2 > C.BOARD_SIZE * C.BOARD_SIZE

/-- Apply `forward` to the moves in order, demanding that each is accepted by
the state the earlier ones produced. -/
def forwardAll (C : Collab Coord State AI Rng Reward Feat Action) :
    State → List Coord → Option State
  | s, [] => some s
  | s, c :: cs => if (C.forward s c).1 then forwardAll C (C.forward s c).2 cs else none

end Code

/-! ## A small implementation of the collaborators -/

namespace Sample

/-- A board that accepts every move except `0` and counts plies from 0. -/
def forward (s : List Nat) (c : Nat) : Bool × List Nat :=
  if c = 0 then (false, s) else (true, s ++ [c])

/-- Collaborators over that board: a scripted agent, a counter as generator,
one character per move as codec. -/
def collab (boardSize : Int) : Collab Nat (List Nat) (List Nat) Nat Int Nat Nat where
  BOARD_SIZE := boardSize
  forward := forward
  GetPly := fun s => (s.length : Int)
  Reset := fun _ => []
  Evaluate := fun s draw g => (((draw g).1 : Int) + s.length, (draw g).2)
  Extract := fun s code => s.length + code
  Coord2Action := fun _ code c => 8 * c + code
  rngSeed := fun n => n
  rngNext := fun g => (g, g + 1)
  aiAct := fun ai _ _ => (ai.headD 0, ai.tail)
  GameEnd := fun ai => ai
  newMCTSGoAI := [1, 2, 3]
  newDirectPredictAI := [3, 2, 1]
  coords2sgfstr := fun ms => String.mk (ms.map Char.ofNat)
  sgfstr2coords := fun s => s.data.map Char.toNat
  get_seed := fun idx => idx.toNat + 1

/-- A buffer that stores records and whose `Insert` answers `accept`. -/
def buffer (accept : Bool) : RWBuffer (List (Record Int)) Int where
  Insert := fun b r => (accept, if accept then b ++ [r] else b)
  LastError := fun _ => "rejected"
  sample := fun b => (b.headD { game_id := 0, reward := 0, content := "" }, b)

/-- Options for generation with the direct-inference agent. -/
def selfplayOptions : GameOptions :=
  { mode := "selfplay", use_mcts := false, num_future_actions := 3, seed := 42, verbose := false }

/-- Options for training with a window of three moves. -/
def trainOptions : GameOptions :=
  { mode := "train", use_mcts := false, num_future_actions := 3, seed := 5, verbose := false }

/-- A training-mode driver for slot 0: no agent bound. -/
def trainDriver : Driver Nat (List Nat) (List Nat) Nat :=
  mk (collab 19) 0 trainOptions []

/-- A generation-mode driver for slot 0 whose agent plays the given script. -/
def driver (script : List Nat) : Driver Nat (List Nat) (List Nat) Nat :=
  { mk (collab 19) 0 selfplayOptions [] with _ai := some script }

/-- The driver of `driver` after the moves `played` were accepted and kept. -/
def driverAt (played script : List Nat) : Driver Nat (List Nat) (List Nat) Nat :=
  { driver script with _state := played, _moves := played }

end Sample

/-! ## The generation branch -/

section Generation

variable {Coord State AI Rng Reward Feat Action Buf : Type}

theorem wrapInt32_of_range (x : Int) (hlo : -(2 : Int) ^ 31 ≤ x) (hhi : x < 2 ^ 31) :
    wrapInt32 x = x := by
  unfold wrapInt32
  have h31 : (2 : Int) ^ 31 = 2147483648 := by norm_num
  have h32 : (2 : Int) ^ 32 = 4294967296 := by norm_num
  rw [h31] at hlo hhi ⊢
  rw [h32]
  omega

theorem wrapInt32_succ (g : Int) (hlo : -(2 : Int) ^ 31 ≤ g) (hhi : g < 2 ^ 31 - 1) :
    wrapInt32 (g + 1) = g + 1 := by
  apply wrapInt32_of_range
  · have h31 : (2 : Int) ^ 31 = 2147483648 := by norm_num
    rw [h31] at hlo ⊢
    omega
  · omega

/-- At the largest `int` the increment wraps to the smallest one. -/
theorem wrapInt32_at_max : wrapInt32 (2147483647 + 1) = -2147483648 := by decide

theorem Act_selfplay (C : Collab Coord State AI Rng Reward Feat Action)
    (B : RWBuffer Buf Reward) (wild : Nat → Coord) (done : Bool)
    (d : Driver Coord State AI Rng) (ai : AI) (b : Buf) (h : d._ai = some ai) :
    Act C B wild done d b = .ok (actSelfPlay C B done d ai b) := by
  simp [Act, h]

theorem actSelfPlay_continue (C : Collab Coord State AI Rng Reward Feat Action)
    (B : RWBuffer Buf Reward) (done : Bool)
    (d : Driver Coord State AI Rng) (ai : AI) (b : Buf)
    (h : ¬ restartTest C d ai done) :
    actSelfPlay C B done d ai b =
      ({ d with _state := (C.forward d._state (C.aiAct ai d._state done).1).2,
                _moves := d._moves ++ [(C.aiAct ai d._state done).1],
                _ai := some (C.aiAct ai d._state done).2 }, b,
       [Event.forward (C.aiAct ai d._state done).1 true]) := by
  simp only [restartTest, not_or, Bool.not_eq_false, not_lt] at h
  obtain ⟨h1, h2⟩ := h
  simp [actSelfPlay, h1, not_lt.mpr h2]

theorem actSelfPlay_restart (C : Collab Coord State AI Rng Reward Feat Action)
    (B : RWBuffer Buf Reward) (done : Bool)
    (d : Driver Coord State AI Rng) (ai : AI) (b : Buf)
    (h : restartTest C d ai done) :
    actSelfPlay C B done d ai b =
      (let c := (C.aiAct ai d._state done).1
       let fw := C.forward d._state c
       let ev := C.Evaluate fw.2 (rngThunk C) d._rng
       let r : Record Reward :=
         { game_id := d._game_idx, reward := ev.1, content := C.coords2sgfstr d._moves }
       let ins := B.Insert b r
       ({ d with _state := C.Reset fw.2, _moves := [],
                 _ai := some (C.GameEnd (C.aiAct ai d._state done).2),
                 _rng := ev.2, _game_idx := wrapInt32 (d._game_idx + 1) },
        ins.2,
        [Event.forward c fw.1, Event.restartLog c (C.GetPly fw.2), Event.insert r ins.1]
          ++ (if ins.1 then [] else [Event.insertErrorLog (B.LastError ins.2)])
          ++ [Event.gameEnd])) := by
  have h2 : (!(C.forward d._state (C.aiAct ai d._state done).1).1 ||
      decide (C.GetPly (C.forward d._state (C.aiAct ai d._state done).1).2 >
        C.BOARD_SIZE * C.BOARD_SIZE)) = true := by
    rcases h with h | h
    · simp [h]
    · simp [h]
  simp only [actSelfPlay, h2, if_true]

/-- C2: a generation step offers a record (finalizes) exactly when `forward`
rejects the chosen move or the ply after it exceeds `BOARD_SIZE * BOARD_SIZE`;
otherwise it only appends the move to `_moves` (state advanced by `forward`,
agent advanced by its own `Act`, nothing inserted, `_game_idx`, `_rng`, the
buffer and the earlier moves untouched) and the ply it leaves is at most the
ceiling. -/
theorem act_finalizes_iff_restartTest (C : Collab Coord State AI Rng Reward Feat Action)
    (B : RWBuffer Buf Reward) (wild : Nat → Coord) (done : Bool)
    (d : Driver Coord State AI Rng) (ai : AI) (b : Buf) (h : d._ai = some ai) :
    ∃ d1 b1 ev, Act C B wild done d b = .ok (d1, b1, ev) ∧
      (insertedRecords ev ≠ [] ↔
        ((C.forward d._state (C.aiAct ai d._state done).1).1 = false ∨
          C.GetPly (C.forward d._state (C.aiAct ai d._state done).1).2 >
            C.BOARD_SIZE * C.BOARD_SIZE)) ∧
      (insertedRecords ev = [] →
        d1 = { d with _state := (C.forward d._state (C.aiAct ai d._state done).1).2,
                      _moves := d._moves ++ [(C.aiAct ai d._state done).1],
                      _ai := some (C.aiAct ai d._state done).2 } ∧
        b1 = b ∧
        ev = [Event.forward (C.aiAct ai d._state done).1 true] ∧
        d1._game_idx = d._game_idx ∧
        d1._moves.take d._moves.length = d._moves ∧
        C.GetPly d1._state ≤ C.BOARD_SIZE * C.BOARD_SIZE) := by
  rw [Act_selfplay C B wild done d ai b h]
  by_cases hr : restartTest C d ai done
  · rw [actSelfPlay_restart C B done d ai b hr]
    refine ⟨_, _, _, rfl, ?_⟩
    have hr2 := hr
    simp only [restartTest] at hr2
    simp [insertedRecords, List.filterMap_cons, hr2]
  · rw [actSelfPlay_continue C B done d ai b hr]
    refine ⟨_, _, _, rfl, ?_⟩
    simp only [restartTest, not_or, not_lt, Bool.not_eq_false] at hr
    simp [insertedRecords, List.filterMap_cons, hr.1, hr.2, not_lt.mpr hr.2]

/-- Witness for C2: slot 0 with an agent that
plays the legal move 5 appends it and offers no record. -/
theorem act_finalizes_iff_restartTest_witness :
    (Sample.driver [5])._ai = some [5] ∧
    ∃ d1 b1 ev, Act (Sample.collab 19) (Sample.buffer true) (fun _ => 0) false
        (Sample.driver [5]) [] = .ok (d1, b1, ev) ∧
      d1._moves = [5] ∧ insertedRecords ev = [] := by
  refine ⟨rfl, ?_⟩
  obtain ⟨d1, b1, ev, h1, h2, h3⟩ :=
    act_finalizes_iff_restartTest (Sample.collab 19) (Sample.buffer true) (fun _ => 0) false
      (Sample.driver [5]) [5] [] rfl
  have hnil : insertedRecords ev = [] := by
    by_contra hne
    have := h2.mp hne
    revert this
    simp [Sample.collab, Sample.driver, Sample.forward, mk]
  refine ⟨d1, b1, ev, h1, ?_, hnil⟩
  rw [(h3 hnil).1]
  simp [Sample.collab, Sample.driver, mk]

/-- C3: a finalizing generation step offers exactly one record to the buffer:
its `game_id` is `_game_idx` as it was before the step, its `reward` is
`Evaluate` of the state that `forward` left (before `Reset`), fed from the
driver's `_rng`, its `content` encodes `_moves` as they were before the step;
afterwards `_game_idx` is the `int` increment of the old one, which is one
higher for every slot below the largest `int`. -/
theorem act_finalize_record (C : Collab Coord State AI Rng Reward Feat Action)
    (B : RWBuffer Buf Reward) (wild : Nat → Coord) (done : Bool)
    (d : Driver Coord State AI Rng) (ai : AI) (b : Buf) (h : d._ai = some ai)
    (hr : (C.forward d._state (C.aiAct ai d._state done).1).1 = false ∨
      C.GetPly (C.forward d._state (C.aiAct ai d._state done).1).2 >
        C.BOARD_SIZE * C.BOARD_SIZE) :
    ∃ d1 b1 ev r, Act C B wild done d b = .ok (d1, b1, ev) ∧
      insertedRecords ev = [r] ∧
      r.game_id = d._game_idx ∧
      r.reward = (C.Evaluate (C.forward d._state (C.aiAct ai d._state done).1).2
        (fun g => ((C.rngNext g).1 % 2 ^ 32, (C.rngNext g).2)) d._rng).1 ∧
      r.content = C.coords2sgfstr d._moves ∧
      b1 = (B.Insert b r).2 ∧
      d1._rng = (C.Evaluate (C.forward d._state (C.aiAct ai d._state done).1).2
        (fun g => ((C.rngNext g).1 % 2 ^ 32, (C.rngNext g).2)) d._rng).2 ∧
      d1._game_idx = wrapInt32 (d._game_idx + 1) ∧
      (-(2 : Int) ^ 31 ≤ d._game_idx → d._game_idx < 2 ^ 31 - 1 →
        d1._game_idx = d._game_idx + 1) := by
  rw [Act_selfplay C B wild done d ai b h, actSelfPlay_restart C B done d ai b hr]
  refine ⟨_, _, _, _, rfl, ?_, rfl, rfl, rfl, rfl, rfl, rfl,
    fun hlo hhi => wrapInt32_succ _ hlo hhi⟩
  by_cases hi : (B.Insert b { game_id := d._game_idx
                              reward := (C.Evaluate
                                (C.forward d._state (C.aiAct ai d._state done).1).2
                                (rngThunk C) d._rng).1
                              content := C.coords2sgfstr d._moves }).1 = true
  · simp [insertedRecords, List.filterMap_cons, hi]
  · simp [insertedRecords, List.filterMap_cons, hi]

/-- Witness for C3: slot 0, first chosen move illegal:
the record carries id 0 and the next episode id 1. -/
theorem act_finalize_record_witness :
    (Sample.driver [0])._ai = some [0] ∧
    ∃ d1 b1 ev r, Act (Sample.collab 19) (Sample.buffer true) (fun _ => 0) false
        (Sample.driver [0]) [] = .ok (d1, b1, ev) ∧
      insertedRecords ev = [r] ∧ r.game_id = 0 ∧ d1._game_idx = 1 := by
  refine ⟨rfl, ?_⟩
  obtain ⟨d1, b1, ev, r, h1, h2, h3, _, _, _, _, _, h9⟩ :=
    act_finalize_record (Sample.collab 19) (Sample.buffer true) (fun _ => 0) false
      (Sample.driver [0]) [0] [] rfl (Or.inl rfl)
  refine ⟨d1, b1, ev, r, h1, h2, ?_, ?_⟩
  · rw [h3]; rfl
  · rw [h9 (by decide) (by decide)]; rfl

/-- C4: the driver a finalizing generation step leaves does not depend on the
buffer or on what `Insert` answers: the state is `Reset`, `_moves` is empty, the
agent got `GameEnd`, `_game_idx` got its `int` increment (one higher for every
slot below the largest `int`).  The step returns normally,
calls `Insert` once, and logs the buffer's last error exactly when `Insert`
answered false. -/
theorem act_finalize_ignores_insert {Buf2 : Type}
    (C : Collab Coord State AI Rng Reward Feat Action)
    (B : RWBuffer Buf Reward) (B2 : RWBuffer Buf2 Reward) (wild : Nat → Coord) (done : Bool)
    (d : Driver Coord State AI Rng) (ai : AI) (b : Buf) (b2 : Buf2) (h : d._ai = some ai)
    (hr : (C.forward d._state (C.aiAct ai d._state done).1).1 = false ∨
      C.GetPly (C.forward d._state (C.aiAct ai d._state done).1).2 >
        C.BOARD_SIZE * C.BOARD_SIZE) :
    ∃ d1 b1 ev r b12 ev2,
      Act C B wild done d b = .ok (d1, b1, ev) ∧
      Act C B2 wild done d b2 = .ok (d1, b12, ev2) ∧
      d1._state = C.Reset (C.forward d._state (C.aiAct ai d._state done).1).2 ∧
      d1._moves = [] ∧
      d1._ai = some (C.GameEnd (C.aiAct ai d._state done).2) ∧
      d1._game_idx = wrapInt32 (d._game_idx + 1) ∧
      (-(2 : Int) ^ 31 ≤ d._game_idx → d._game_idx < 2 ^ 31 - 1 →
        d1._game_idx = d._game_idx + 1) ∧
      insertedRecords ev = [r] ∧ insertedRecords ev2 = [r] ∧
      gameEndCount ev = 1 ∧ gameEndCount ev2 = 1 ∧
      b1 = (B.Insert b r).2 ∧
      ((B.Insert b r).1 = false ↔ Event.insertErrorLog (B.LastError b1) ∈ ev) := by
  rw [Act_selfplay C B wild done d ai b h, Act_selfplay C B2 wild done d ai b2 h,
    actSelfPlay_restart C B done d ai b hr, actSelfPlay_restart C B2 done d ai b2 hr]
  refine ⟨_, _, _, _, _, _, rfl, rfl, rfl, rfl, rfl, rfl,
    fun hlo hhi => wrapInt32_succ _ hlo hhi, ?_, ?_, ?_, ?_, rfl, ?_⟩
  · by_cases hi : (B.Insert b { game_id := d._game_idx
                                reward := (C.Evaluate
                                  (C.forward d._state (C.aiAct ai d._state done).1).2
                                  (rngThunk C) d._rng).1
                                content := C.coords2sgfstr d._moves }).1 = true
    · simp [insertedRecords, List.filterMap_cons, hi]
    · simp [insertedRecords, List.filterMap_cons, hi]
  · by_cases hi : (B2.Insert b2 { game_id := d._game_idx
                                  reward := (C.Evaluate
                                    (C.forward d._state (C.aiAct ai d._state done).1).2
                                    (rngThunk C) d._rng).1
                                  content := C.coords2sgfstr d._moves }).1 = true
    · simp [insertedRecords, List.filterMap_cons, hi]
    · simp [insertedRecords, List.filterMap_cons, hi]
  · by_cases hi : (B.Insert b { game_id := d._game_idx
                                reward := (C.Evaluate
                                  (C.forward d._state (C.aiAct ai d._state done).1).2
                                  (rngThunk C) d._rng).1
                                content := C.coords2sgfstr d._moves }).1 = true
    · simp [gameEndCount, List.countP_cons, hi]
    · simp [gameEndCount, List.countP_cons, hi]
  · by_cases hi : (B2.Insert b2 { game_id := d._game_idx
                                  reward := (C.Evaluate
                                    (C.forward d._state (C.aiAct ai d._state done).1).2
                                    (rngThunk C) d._rng).1
                                  content := C.coords2sgfstr d._moves }).1 = true
    · simp [gameEndCount, List.countP_cons, hi]
    · simp [gameEndCount, List.countP_cons, hi]
  · by_cases hi : (B.Insert b { game_id := d._game_idx
                                reward := (C.Evaluate
                                  (C.forward d._state (C.aiAct ai d._state done).1).2
                                  (rngThunk C) d._rng).1
                                content := C.coords2sgfstr d._moves }).1 = true
    · simp [hi]
    · simp [hi]

/-- Witness for C4: an accepting and a rejecting
buffer leave the same driver, in slot 1 with no moves. -/
theorem act_finalize_ignores_insert_witness :
    (Sample.driver [0])._ai = some [0] ∧
    ∃ d1 b1 ev b12 ev2,
      Act (Sample.collab 19) (Sample.buffer true) (fun _ => 0) false
        (Sample.driver [0]) [] = .ok (d1, b1, ev) ∧
      Act (Sample.collab 19) (Sample.buffer false) (fun _ => 0) false
        (Sample.driver [0]) [] = .ok (d1, b12, ev2) ∧
      d1._moves = [] ∧ d1._game_idx = 1 := by
  refine ⟨rfl, ?_⟩
  obtain ⟨d1, b1, ev, r, b12, ev2, h1, h2, _, h4, _, _, h7, _⟩ :=
    act_finalize_ignores_insert (Sample.collab 19) (Sample.buffer true) (Sample.buffer false)
      (fun _ => 0) false (Sample.driver [0]) [0] [] [] rfl (Or.inl rfl)
  refine ⟨d1, b1, ev, b12, ev2, h1, h2, h4, ?_⟩
  rw [h7 (by decide) (by decide)]
  rfl

theorem forwardAll_snoc (C : Collab Coord State AI Rng Reward Feat Action)
    (base s : State) (ms : List Coord) (c : Coord)
    (h : forwardAll C base ms = some s) (hc : (C.forward s c).1 = true) :
    forwardAll C base (ms ++ [c]) = some (C.forward s c).2 := by
  induction ms generalizing base with
  | nil =>
    simp only [forwardAll, Option.some.injEq] at h
    subst h
    simp [forwardAll, hc]
  | cons m ms ih =>
    simp only [forwardAll, List.cons_append] at h ⊢
    by_cases hm : (C.forward base m).1 = true
    · simp only [hm, if_true] at h ⊢
      exact ih _ h
    · simp [hm] at h

theorem forwardAll_ply (C : Collab Coord State AI Rng Reward Feat Action)
    (hfw : ∀ s c, C.GetPly (C.forward s c).2 =
      C.GetPly s + (if (C.forward s c).1 then 1 else 0))
    (base s : State) (ms : List Coord) (h : forwardAll C base ms = some s) :
    C.GetPly s = C.GetPly base + ms.length := by
  induction ms generalizing base with
  | nil =>
    simp only [forwardAll, Option.some.injEq] at h
    subst h
    simp
  | cons m ms ih =>
    simp only [forwardAll] at h
    by_cases hm : (C.forward base m).1 = true
    · simp only [hm, if_true] at h
      rw [ih _ h, hfw base m, hm]
      simp only [if_true, List.length_cons]
      push_cast
      ring
    · simp [hm] at h

/-- One generation step keeps the agent bound, leaves a ply of at most
`BOARD_SIZE * BOARD_SIZE`, and keeps `_state` equal to what `forward` made of
some ply-0 state by accepting each of `_moves` in turn. -/
theorem Act_keeps_accepted (C : Collab Coord State AI Rng Reward Feat Action)
    (B : RWBuffer Buf Reward) (wild : Nat → Coord) (done : Bool)
    (hreset : ∀ s, C.GetPly (C.Reset s) = 0)
    (d : Driver Coord State AI Rng) (b : Buf) (hai : d._ai.isSome = true)
    (hinv : ∃ base, C.GetPly base = 0 ∧ forwardAll C base d._moves = some d._state) :
    ∃ d1 b1 ev, Act C B wild done d b = .ok (d1, b1, ev) ∧ d1._ai.isSome = true ∧
      C.GetPly d1._state ≤ C.BOARD_SIZE * C.BOARD_SIZE ∧
      ∃ base, C.GetPly base = 0 ∧ forwardAll C base d1._moves = some d1._state := by
  obtain ⟨ai, h⟩ := Option.isSome_iff_exists.mp hai
  obtain ⟨base, hb0, hbase⟩ := hinv
  rw [Act_selfplay C B wild done d ai b h]
  by_cases hr : restartTest C d ai done
  · rw [actSelfPlay_restart C B done d ai b hr]
    refine ⟨_, _, _, rfl, rfl, ?_, C.Reset _, hreset _, rfl⟩
    simp only [hreset]
    exact mul_self_nonneg _
  · rw [actSelfPlay_continue C B done d ai b hr]
    simp only [restartTest, not_or, not_lt, Bool.not_eq_false] at hr
    exact ⟨_, _, _, rfl, rfl, hr.2, base, hb0, forwardAll_snoc C base _ _ _ hbase hr.1⟩

/-- Any number of generation steps from a driver with a bound agent, no moves
and ply 0 return, and keep what `Act_keeps_accepted` lists. -/
theorem runActs_keeps_accepted (C : Collab Coord State AI Rng Reward Feat Action)
    (B : RWBuffer Buf Reward) (wild : Nat → Coord)
    (hreset : ∀ s, C.GetPly (C.Reset s) = 0)
    (signals : List Bool) (d : Driver Coord State AI Rng) (b : Buf)
    (hai : d._ai.isSome = true) (hmoves : d._moves = []) (hply : C.GetPly d._state = 0) :
    ∃ d1 b1 ev, runActs C B wild signals d b = .ok (d1, b1, ev) ∧ d1._ai.isSome = true ∧
      C.GetPly d1._state ≤ C.BOARD_SIZE * C.BOARD_SIZE ∧
      ∃ base, C.GetPly base = 0 ∧ forwardAll C base d1._moves = some d1._state := by
  have key : ∀ (signals : List Bool) (d : Driver Coord State AI Rng) (b : Buf),
      d._ai.isSome = true →
      C.GetPly d._state ≤ C.BOARD_SIZE * C.BOARD_SIZE →
      (∃ base, C.GetPly base = 0 ∧ forwardAll C base d._moves = some d._state) →
      ∃ d1 b1 ev, runActs C B wild signals d b = .ok (d1, b1, ev) ∧ d1._ai.isSome = true ∧
        C.GetPly d1._state ≤ C.BOARD_SIZE * C.BOARD_SIZE ∧
        ∃ base, C.GetPly base = 0 ∧ forwardAll C base d1._moves = some d1._state := by
    intro signals
    induction signals with
    | nil =>
      intro d b hai hle hinv
      exact ⟨d, b, [], rfl, hai, hle, hinv⟩
    | cons done rest ih =>
      intro d b hai _ hinv
      obtain ⟨d1, b1, ev1, h1, hai1, hle1, hinv1⟩ :=
        Act_keeps_accepted C B wild done hreset d b hai hinv
      obtain ⟨d2, b2, ev2, h2, hrest⟩ := ih d1 b1 hai1 hle1 hinv1
      exact ⟨d2, b2, ev1 ++ ev2, by simp [runActs, h1, h2], hrest⟩
  refine key signals d b hai ?_ ⟨d._state, hply, by rw [hmoves]; rfl⟩
  rw [hply]
  exact mul_self_nonneg _

/-- C10: from a driver with a bound agent, no moves and ply 0, after any number
of generation steps the length of `_moves` is the ply of `_state`, and `_state`
is what `forward` made of a ply-0 state by accepting every move of `_moves` in
order (given that `forward` adds one ply exactly when it accepts and `Reset`
gives ply 0). -/
theorem moves_length_eq_ply (C : Collab Coord State AI Rng Reward Feat Action)
    (B : RWBuffer Buf Reward) (wild : Nat → Coord)
    (hfw : ∀ s c, C.GetPly (C.forward s c).2 =
      C.GetPly s + (if (C.forward s c).1 then 1 else 0))
    (hreset : ∀ s, C.GetPly (C.Reset s) = 0)
    (signals : List Bool) (d : Driver Coord State AI Rng) (b : Buf) (ai : AI)
    (hai : d._ai = some ai) (hmoves : d._moves = []) (hply : C.GetPly d._state = 0) :
    ∃ d1 b1 ev, runActs C B wild signals d b = .ok (d1, b1, ev) ∧
      (d1._moves.length : Int) = C.GetPly d1._state ∧
      ∃ base, C.GetPly base = 0 ∧ forwardAll C base d1._moves = some d1._state := by
  obtain ⟨d1, b1, ev, hrun, _, _, base, hb0, hbase⟩ :=
    runActs_keeps_accepted C B wild hreset signals d b (by simp [hai]) hmoves hply
  refine ⟨d1, b1, ev, hrun, ?_, base, hb0, hbase⟩
  rw [forwardAll_ply C hfw base _ _ hbase, hb0]
  simp

theorem Sample.forward_ply (n : Int) (s : List Nat) (c : Nat) :
    (Sample.collab n).GetPly ((Sample.collab n).forward s c).2 =
      (Sample.collab n).GetPly s + (if ((Sample.collab n).forward s c).1 then 1 else 0) := by
  by_cases hc : c = 0
  · simp [Sample.collab, Sample.forward, hc]
  · simp [Sample.collab, Sample.forward, hc]

/-- Witness for C10: two steps of slot 0 with the script
"legal move 5, then the illegal move 0". -/
theorem moves_length_eq_ply_witness :
    (Sample.driver [5, 0])._ai = some [5, 0] ∧ (Sample.driver [5, 0])._moves = [] ∧
    (Sample.collab 19).GetPly (Sample.driver [5, 0])._state = 0 ∧
    ∃ d1 b1 ev, runActs (Sample.collab 19) (Sample.buffer true) (fun _ => 0) [false, false]
        (Sample.driver [5, 0]) [] = .ok (d1, b1, ev) ∧
      (d1._moves.length : Int) = (Sample.collab 19).GetPly d1._state :=
  ⟨rfl, rfl, rfl,
    (moves_length_eq_ply (Sample.collab 19) (Sample.buffer true) (fun _ => 0)
      (Sample.forward_ply 19) (fun _ => rfl) [false, false] (Sample.driver [5, 0]) []
      [5, 0] rfl rfl rfl).imp fun _ h1 => h1.imp fun _ h2 => h2.imp fun _ h3 => ⟨h3.1, h3.2.1⟩⟩

theorem runActs_cons (C : Collab Coord State AI Rng Reward Feat Action)
    (B : RWBuffer Buf Reward) (wild : Nat → Coord) (rest : List Bool) (done : Bool)
    (d d1 : Driver Coord State AI Rng) (b b1 : Buf)
    (ev1 : List (Event Coord Reward Feat Action))
    (h1 : Act C B wild done d b = .ok (d1, b1, ev1)) :
    runActs C B wild (done :: rest) d b =
      match runActs C B wild rest d1 b1 with
      | .error e => .error e
      | .ok (d2, b2, ev2) => .ok (d2, b2, ev1 ++ ev2) := by
  simp only [runActs, h1]

theorem runActs_snoc (C : Collab Coord State AI Rng Reward Feat Action)
    (B : RWBuffer Buf Reward) (wild : Nat → Coord) (signals : List Bool) (done : Bool)
    (d d1 d2 : Driver Coord State AI Rng) (b b1 b2 : Buf)
    (ev1 ev2 : List (Event Coord Reward Feat Action))
    (h1 : runActs C B wild signals d b = .ok (d1, b1, ev1))
    (h2 : Act C B wild done d1 b1 = .ok (d2, b2, ev2)) :
    runActs C B wild (signals ++ [done]) d b = .ok (d2, b2, ev1 ++ ev2) := by
  induction signals generalizing d b ev1 with
  | nil =>
    simp only [runActs, Except.ok.injEq, Prod.mk.injEq] at h1
    obtain ⟨rfl, rfl, rfl⟩ := h1
    simp [runActs, h2]
  | cons s rest ih =>
    cases hA : Act C B wild s d b with
    | error e => simp [runActs, hA] at h1
    | ok r =>
      obtain ⟨d3, b3, ev3⟩ := r
      rw [runActs_cons C B wild rest s d d3 b b3 ev3 hA] at h1
      rw [List.cons_append, runActs_cons C B wild (rest ++ [done]) s d d3 b b3 ev3 hA]
      cases hR : runActs C B wild rest d3 b3 with
      | error e => simp [hR] at h1
      | ok r2 =>
        obtain ⟨d4, b4, ev4⟩ := r2
        simp only [hR, Except.ok.injEq, Prod.mk.injEq] at h1
        obtain ⟨rfl, rfl, rfl⟩ := h1
        rw [ih d3 b3 ev4 hR]
        simp

theorem Sample.act_legal (B : RWBuffer Buf Int) (wild : Nat → Nat) (done : Bool)
    (played script : List Nat) (c : Nat) (b : Buf) (hc : c ≠ 0) (hlen : played.length < 361) :
    Act (Sample.collab 19) B wild done (Sample.driverAt played (c :: script)) b =
      .ok (Sample.driverAt (played ++ [c]) script, b,
        [(Event.forward c true : Event Nat Int Nat Nat)]) := by
  rw [Act_selfplay (Sample.collab 19) B wild done _ (c :: script) b rfl]
  have hr : ¬ restartTest (Sample.collab 19) (Sample.driverAt played (c :: script))
      (c :: script) done := by
    simp only [restartTest, Sample.collab, Sample.forward, Sample.driverAt, List.headD_cons,
      hc, if_false, not_or, not_lt]
    refine ⟨by simp, ?_⟩
    simp only [List.length_append, List.length_singleton]
    push_cast
    have : (played.length : Int) < 361 := by exact_mod_cast hlen
    linarith
  rw [actSelfPlay_continue (Sample.collab 19) B done _ (c :: script) b hr]
  simp [Sample.collab, Sample.forward, Sample.driverAt, Sample.driver, mk, hc]

theorem Sample.run_legal (B : RWBuffer Buf Int) (wild : Nat → Nat) (done : Bool)
    (pre : List Nat) :
    ∀ (played script : List Nat) (b : Buf), (∀ c ∈ pre, c ≠ 0) →
      played.length + pre.length ≤ 361 →
      runActs (Sample.collab 19) B wild (List.replicate pre.length done)
        (Sample.driverAt played (pre ++ script)) b =
      .ok (Sample.driverAt (played ++ pre) script, b,
        pre.map (fun c => (Event.forward c true : Event Nat Int Nat Nat))) := by
  induction pre with
  | nil =>
    intro played script b _ _
    simp [runActs]
  | cons c pre ih =>
    intro played script b hne hlen
    simp only [List.length_cons] at hlen
    have h1 := Sample.act_legal B wild done played (pre ++ script) c b
      (hne c (List.mem_cons_self _ _)) (by omega)
    have h2 := ih (played ++ [c]) script b
      (fun x hx => hne x (List.mem_cons_of_mem _ hx))
      (by simp only [List.length_append, List.length_singleton]; omega)
    rw [List.length_cons, List.replicate_succ, List.cons_append,
      runActs_cons _ _ _ _ _ _ _ _ _ _ h1, h2]
    simp

theorem insertedRecords_forward (cs : List Coord) :
    insertedRecords (cs.map (fun c => (Event.forward c true : Event Coord Reward Feat Action)))
      = [] := by
  induction cs with
  | nil => rfl
  | cons c cs ih =>
    simp only [insertedRecords, List.map_cons, List.filterMap_cons] at ih ⊢
    exact ih

theorem acceptedMoves_forward (cs : List Coord) :
    acceptedMoves (cs.map (fun c => (Event.forward c true : Event Coord Reward Feat Action)))
      = cs := by
  induction cs with
  | nil => rfl
  | cons c cs ih =>
    simp only [acceptedMoves, List.map_cons, List.filterMap_cons] at ih ⊢
    rw [ih]

theorem insertedRecords_restart (pre : List (Event Coord Reward Feat Action))
    (c : Coord) (ok : Bool) (ply : Int) (r : Record Reward) (ins : Bool) (e : String) :
    insertedRecords (pre ++ ([Event.forward c ok, Event.restartLog c ply, Event.insert r ins]
      ++ (if ins = true then [] else [Event.insertErrorLog e]) ++ [Event.gameEnd])) =
      insertedRecords pre ++ [r] := by
  cases ins <;> simp [insertedRecords, List.filterMap_append, List.filterMap_cons]

theorem insertedRecords_restart_only
    (c : Coord) (ok : Bool) (ply : Int) (r : Record Reward) (ins : Bool) (e : String) :
    insertedRecords ([Event.forward c ok, Event.restartLog c ply, Event.insert r ins]
      ++ (if ins = true then [] else [Event.insertErrorLog e]) ++
        [(Event.gameEnd : Event Coord Reward Feat Action)]) = [r] := by
  cases ins <;> simp [insertedRecords, List.filterMap_cons]

theorem acceptedMoves_restart (pre : List (Event Coord Reward Feat Action))
    (c : Coord) (ply : Int) (r : Record Reward) (ins : Bool) (e : String) :
    acceptedMoves (pre ++ ([Event.forward c true, Event.restartLog c ply, Event.insert r ins]
      ++ (if ins = true then [] else [Event.insertErrorLog e]) ++ [Event.gameEnd])) =
      acceptedMoves pre ++ [c] := by
  cases ins <;> simp [acceptedMoves, List.filterMap_append, List.filterMap_cons]

theorem acceptedMoves_restart_only
    (c : Coord) (ply : Int) (r : Record Reward) (ins : Bool) (e : String) :
    acceptedMoves ([Event.forward c true, Event.restartLog c ply, Event.insert r ins]
      ++ (if ins = true then [] else [Event.insertErrorLog e]) ++
        [(Event.gameEnd : Event Coord Reward Feat Action)]) = [c] := by
  cases ins <;> simp [acceptedMoves, List.filterMap_cons]

/-- For any collaborators: when `forward` accepts the chosen move and the ply
after it exceeds the ceiling, the step finalizes with a record that encodes
`_moves` without that move, although the move was accepted. -/
theorem ceiling_step_record_omits_move (C : Collab Coord State AI Rng Reward Feat Action)
    (B : RWBuffer Buf Reward) (wild : Nat → Coord) (done : Bool)
    (d : Driver Coord State AI Rng) (ai : AI) (b : Buf) (h : d._ai = some ai)
    (hok : (C.forward d._state (C.aiAct ai d._state done).1).1 = true)
    (hply : C.GetPly (C.forward d._state (C.aiAct ai d._state done).1).2 >
      C.BOARD_SIZE * C.BOARD_SIZE) :
    ∃ d1 b1 ev r, Act C B wild done d b = .ok (d1, b1, ev) ∧
      insertedRecords ev = [r] ∧ r.content = C.coords2sgfstr d._moves ∧
      acceptedMoves ev = [(C.aiAct ai d._state done).1] := by
  have hA := Act_selfplay C B wild done d ai b h
  rw [actSelfPlay_restart C B done d ai b (Or.inr hply)] at hA
  refine ⟨_, _, _, ?r, hA, ?h1, ?h2, ?h3⟩
  case h1 => exact insertedRecords_restart_only _ _ _ _ _ _
  case h2 => rfl
  case h3 =>
    simp only [hok]
    exact acceptedMoves_restart_only _ _ _ _ _

/-- At the largest slot the counter wraps: a driver in slot `2 ^ 31 - 1` whose
first move is rejected offers a record with that id and goes on in slot
`-2 ^ 31`. -/
theorem act_finalize_at_largest_slot :
    ∃ d1 b1 ev r, Act (Sample.collab 19) (Sample.buffer true) (fun _ => 0) false
        { Sample.driver [0] with _game_idx := 2147483647 } [] = .ok (d1, b1, ev) ∧
      insertedRecords ev = [r] ∧ r.game_id = 2147483647 ∧ d1._game_idx = -2147483648 := by
  have hr : restartTest (Sample.collab 19)
      { Sample.driver [0] with _game_idx := 2147483647 } [0] false := Or.inl rfl
  have hA := Act_selfplay (Sample.collab 19) (Sample.buffer true) (fun _ => 0) false
    { Sample.driver [0] with _game_idx := 2147483647 } [0] [] rfl
  rw [actSelfPlay_restart _ _ _ _ _ _ hr] at hA
  refine ⟨_, _, _, ?r, hA, ?h1, ?h2, ?h3⟩
  case h1 => exact insertedRecords_restart_only _ _ _ _ _ _
  case h2 => rfl
  case h3 => exact wrapInt32_at_max

theorem Sample.restart_at_ceiling (done : Bool) (played script : List Nat) (c : Nat)
    (hlen : played.length = 361) :
    restartTest (Sample.collab 19) (Sample.driverAt played (c :: script)) (c :: script) done := by
  by_cases hc : c = 0
  · left
    simp [Sample.collab, Sample.forward, Sample.driverAt, hc]
  · right
    simp only [Sample.collab, Sample.forward, Sample.driverAt, List.headD_cons, hc, if_false,
      List.length_append, List.length_singleton, hlen]
    decide

theorem Sample.ceiling_run (wild : Nat → Nat) (pre : List Nat) (c : Nat)
    (hne : ∀ x ∈ pre, x ≠ 0) (hc : c ≠ 0) (hlen : pre.length = 361) :
    ∃ d1 b1 ev r,
      runActs (Sample.collab 19) (Sample.buffer true) wild
        (List.replicate pre.length false ++ [false]) (Sample.driver (pre ++ [c])) [] =
        .ok (d1, b1, ev) ∧
      insertedRecords ev = [r] ∧
      r.content = (Sample.collab 19).coords2sgfstr pre ∧
      acceptedMoves ev = pre ++ [c] := by
  have hrun := Sample.run_legal (Sample.buffer true) wild false pre [] [c] [] hne
    (by rw [hlen]; decide)
  rw [List.nil_append] at hrun
  have hr := Sample.restart_at_ceiling false pre [] c hlen
  have hlast := Act_selfplay (Sample.collab 19) (Sample.buffer true) wild false
    (Sample.driverAt pre [c]) [c] [] rfl
  rw [actSelfPlay_restart _ _ _ _ _ _ hr] at hlast
  have hall := runActs_snoc _ _ _ _ _ _ _ _ _ _ _ _ _ hrun hlast
  have hf : ((Sample.collab 19).forward (Sample.driverAt pre [c])._state
      ((Sample.collab 19).aiAct [c] (Sample.driverAt pre [c])._state false).1).1 = true := by
    simp [Sample.collab, Sample.forward, hc]
  refine ⟨_, _, _, ?r, hall, ?h1, ?h2, ?h3⟩
  case h1 =>
    rw [insertedRecords_restart, insertedRecords_forward]
    exact List.nil_append _
  case h2 => rfl
  case h3 =>
    rw [hf, acceptedMoves_restart, acceptedMoves_forward]
    rfl

/-- C1 at the ply ceiling: slot 0 on a 19 x 19 board, the agent plays 362 moves
that `forward` all accepts.  The 362nd call finalizes (ply 362 > 361); the one
record offered encodes 361 moves while `forward` accepted 362. -/
theorem ceiling_episode_record_misses_last_move :
    ∃ d1 b1 ev r,
      runActs (Sample.collab 19) (Sample.buffer true) (fun _ => 0) (List.replicate 362 false)
        (Sample.driver (List.replicate 362 1)) [] = .ok (d1, b1, ev) ∧
      insertedRecords ev = [r] ∧
      r.content = (Sample.collab 19).coords2sgfstr (List.replicate 361 1) ∧
      acceptedMoves ev = List.replicate 362 1 := by
  have h := Sample.ceiling_run (fun _ => 0) (List.replicate 361 1) 1
    (fun x hx => by rw [List.eq_of_mem_replicate hx]; decide) (by decide)
    (List.length_replicate 361 1)
  rw [List.length_replicate, ← List.replicate_succ', ← List.replicate_succ'] at h
  exact h

/-- C7 fails on a fresh driver: slot 0, window 3, and the first move the agent
returns is rejected by `forward`.  The step finalizes and offers a record that
encodes no move at all, so neither `0 < L` nor `N ≤ L` holds for it. -/
theorem first_move_rejected_record_is_empty :
    ∃ d1 b1 ev r,
      Act (Sample.collab 19) (Sample.buffer true) (fun _ => 0) false (Sample.driver [0]) [] =
        .ok (d1, b1, ev) ∧
      insertedRecords ev = [r] ∧
      r.content = (Sample.collab 19).coords2sgfstr [] ∧
      ((Sample.collab 19).sgfstr2coords r.content).length = 0 ∧
      ¬ (0 < ((Sample.collab 19).sgfstr2coords r.content).length ∧
          (Sample.driver [0])._options.num_future_actions ≤
            ((Sample.collab 19).sgfstr2coords r.content).length) := by
  have hr : restartTest (Sample.collab 19) (Sample.driver [0]) [0] false := Or.inl rfl
  have hA := Act_selfplay (Sample.collab 19) (Sample.buffer true) (fun _ => 0) false
    (Sample.driver [0]) [0] [] rfl
  rw [actSelfPlay_restart _ _ _ _ _ _ hr] at hA
  refine ⟨_, _, _, ?r, hA, ?h1, ?h2, ?h3, ?h4⟩
  case h1 =>
    exact insertedRecords_restart_only _ _ _ _ _ _
  case h2 => rfl
  case h3 => decide
  case h4 => decide

theorem Sample.codec_length (n : Int) (ms : List Nat) :
    ((Sample.collab n).sgfstr2coords ((Sample.collab n).coords2sgfstr ms)).length =
      ms.length := by
  simp [Sample.collab]

/-- C7 as the code has it: after any number of generation steps from a driver
with a bound agent, no moves and ply 0, a step that finalizes offers one
record, whose content encodes exactly the accumulator before the step.  With a
codec that gives back as many moves as it was given, the record's decoded move
count `L` is the ply before the finalizing step, between 0 and
`BOARD_SIZE * BOARD_SIZE`; so `0 < L` and `N ≤ L` hold exactly when that ply is
positive and at least `N`, which the driver does not check. -/
theorem finalize_record_encodes_accumulator
    (C : Collab Coord State AI Rng Reward Feat Action)
    (B : RWBuffer Buf Reward) (wild : Nat → Coord)
    (hfw : ∀ s c, C.GetPly (C.forward s c).2 =
      C.GetPly s + (if (C.forward s c).1 then 1 else 0))
    (hreset : ∀ s, C.GetPly (C.Reset s) = 0)
    (hcodec : ∀ ms, (C.sgfstr2coords (C.coords2sgfstr ms)).length = ms.length)
    (signals : List Bool) (done : Bool) (d : Driver Coord State AI Rng) (b : Buf) (ai : AI)
    (hai : d._ai = some ai) (hmoves : d._moves = []) (hply : C.GetPly d._state = 0) :
    ∃ d1 b1 ev ai1, runActs C B wild signals d b = .ok (d1, b1, ev) ∧
      d1._ai = some ai1 ∧
      (d1._moves.length : Int) = C.GetPly d1._state ∧
      (d1._moves.length : Int) ≤ C.BOARD_SIZE * C.BOARD_SIZE ∧
      (((C.forward d1._state (C.aiAct ai1 d1._state done).1).1 = false ∨
          C.GetPly (C.forward d1._state (C.aiAct ai1 d1._state done).1).2 >
            C.BOARD_SIZE * C.BOARD_SIZE) →
        ∃ d2 b2 ev2 r, Act C B wild done d1 b1 = .ok (d2, b2, ev2) ∧
          insertedRecords ev2 = [r] ∧
          r.content = C.coords2sgfstr d1._moves ∧
          (C.sgfstr2coords r.content).length = d1._moves.length ∧
          ((C.sgfstr2coords r.content).length : Int) = C.GetPly d1._state ∧
          (0 : Int) ≤ (C.sgfstr2coords r.content).length ∧
          ((C.sgfstr2coords r.content).length : Int) ≤ C.BOARD_SIZE * C.BOARD_SIZE ∧
          ((0 < (C.sgfstr2coords r.content).length ∧
              d1._options.num_future_actions ≤ (C.sgfstr2coords r.content).length) ↔
            (0 < C.GetPly d1._state ∧
              (d1._options.num_future_actions : Int) ≤ C.GetPly d1._state))) := by
  obtain ⟨d1, b1, ev, hrun, hsome, hle, base, hb0, hbase⟩ :=
    runActs_keeps_accepted C B wild hreset signals d b (by simp [hai]) hmoves hply
  obtain ⟨ai1, hai1⟩ := Option.isSome_iff_exists.mp hsome
  have hlen : (d1._moves.length : Int) = C.GetPly d1._state := by
    rw [forwardAll_ply C hfw base _ _ hbase, hb0]
    simp
  refine ⟨d1, b1, ev, ai1, hrun, hai1, hlen, by rw [hlen]; exact hle, fun hr => ?_⟩
  have hA := Act_selfplay C B wild done d1 ai1 b1 hai1
  rw [actSelfPlay_restart C B done d1 ai1 b1 hr] at hA
  have hdec : (C.sgfstr2coords (C.coords2sgfstr d1._moves)).length = d1._moves.length :=
    hcodec d1._moves
  refine ⟨_, _, _, ?r, hA, ?h1, ?h2, ?h3, ?h4, ?h5, ?h6, ?h7⟩
  case h1 => exact insertedRecords_restart_only _ _ _ _ _ _
  case h2 => rfl
  case h3 => exact hdec
  case h4 =>
    show ((C.sgfstr2coords (C.coords2sgfstr d1._moves)).length : Int) = _
    rw [hdec, hlen]
  case h5 => exact Int.natCast_nonneg _
  case h6 =>
    show ((C.sgfstr2coords (C.coords2sgfstr d1._moves)).length : Int) ≤ _
    rw [hdec, hlen]
    exact hle
  case h7 =>
    show (0 < (C.sgfstr2coords (C.coords2sgfstr d1._moves)).length ∧
      d1._options.num_future_actions ≤ (C.sgfstr2coords (C.coords2sgfstr d1._moves)).length) ↔ _
    rw [hdec, ← hlen]
    constructor
    · rintro ⟨h1, h2⟩
      exact ⟨by exact_mod_cast h1, by exact_mod_cast h2⟩
    · rintro ⟨h1, h2⟩
      exact ⟨by exact_mod_cast h1, by exact_mod_cast h2⟩

/-- Witness for C7: slot 0 with window 3 plays the legal move 5 and is then
given the illegal move 0: the step finalizes and the record offered decodes to
one move, more than 0 and fewer than the window. -/
theorem finalize_record_encodes_accumulator_witness :
    (Sample.driver [5, 0])._ai = some [5, 0] ∧ (Sample.driver [5, 0])._moves = [] ∧
    (Sample.collab 19).GetPly (Sample.driver [5, 0])._state = 0 ∧
    (Sample.driver [5, 0])._options.num_future_actions = 3 ∧
    ∃ d1 b1 ev d2 b2 ev2 r,
      runActs (Sample.collab 19) (Sample.buffer true) (fun _ => 0) [false]
        (Sample.driver [5, 0]) [] = .ok (d1, b1, ev) ∧
      insertedRecords ev = [] ∧
      Act (Sample.collab 19) (Sample.buffer true) (fun _ => 0) false d1 b1 =
        .ok (d2, b2, ev2) ∧
      insertedRecords ev2 = [r] ∧
      r.content = (Sample.collab 19).coords2sgfstr [5] ∧
      ((Sample.collab 19).sgfstr2coords r.content).length = 1 ∧
      ((Sample.collab 19).sgfstr2coords r.content).length <
        (Sample.driver [5, 0])._options.num_future_actions := by
  refine ⟨rfl, rfl, rfl, rfl, ?_⟩
  obtain ⟨d1, b1, ev, ai1, hrun, hai1, _, _, hfin⟩ :=
    finalize_record_encodes_accumulator (Sample.collab 19) (Sample.buffer true) (fun _ => 0)
      (Sample.forward_ply 19) (fun _ => rfl) (Sample.codec_length 19) [false] false
      (Sample.driver [5, 0]) [] [5, 0] rfl rfl rfl
  have hconc : runActs (Sample.collab 19) (Sample.buffer true) (fun _ => 0) [false]
      (Sample.driver [5, 0]) [] =
      .ok (Sample.driverAt [5] [0], [], [Event.forward 5 true]) :=
    Sample.run_legal (Sample.buffer true) (fun _ => 0) false [5] [] [0] []
      (fun c hc => by rw [List.mem_singleton.mp hc]; decide) (by decide)
  rw [hconc] at hrun
  simp only [Except.ok.injEq, Prod.mk.injEq] at hrun
  obtain ⟨rfl, rfl, rfl⟩ := hrun
  have hai0 : ai1 = [0] := by
    have h0 : (Sample.driverAt [5] [0])._ai = some [0] := rfl
    rw [h0] at hai1
    exact (Option.some.inj hai1).symm
  subst hai0
  obtain ⟨d2, b2, ev2, r, hA, hrec, hcont, hlen, _⟩ := hfin (Or.inl rfl)
  refine ⟨_, _, _, d2, b2, ev2, r, rfl, ?_, hA, hrec, hcont, ?_, ?_⟩
  · exact insertedRecords_forward [5]
  · rw [hlen]; rfl
  · rw [hlen]; decide

end Generation

/-! ## The training branch -/

section Training

variable {Coord State AI Rng Reward Feat Action Buf : Type}

theorem cutModulus_of_le (L N : Nat) (hN : 1 ≤ N) (hL : N ≤ L) (hsz : L < 2 ^ 64) :
    cutModulus L N = L - N + 1 := by
  unfold cutModulus
  have h64 : (2 : Nat) ^ 64 = 18446744073709551616 := by norm_num
  rw [h64] at hsz ⊢
  omega

theorem readMove_of_lt (moves : List Coord) (wild : Nat → Coord) (i : Nat)
    (h : i < moves.length) : readMove moves wild i = moves.get ⟨i, h⟩ := by
  simp [readMove, List.getElem?_eq_getElem h]

theorem mem_windowIndices (move_to N i : Nat) (h : i ∈ windowIndices move_to N) :
    move_to ≤ i ∧ i < move_to + N := by
  simp only [windowIndices, List.mem_map, List.mem_range] at h
  obtain ⟨k, hk, rfl⟩ := h
  omega

theorem Act_train (C : Collab Coord State AI Rng Reward Feat Action)
    (B : RWBuffer Buf Reward) (wild : Nat → Coord) (done : Bool)
    (d : Driver Coord State AI Rng) (b : Buf) (h : d._ai = none) :
    Act C B wild done d b = actTrain C B wild d b := by
  simp [Act, h]

/-- C5: in a training step on a record of `L` decoded moves with window
`1 ≤ N ≤ L`, whatever the generator returns: the modulus is `L - N + 1`, the
cut `move_to` is at most `L - N`, the step returns and sends one sample whose
`offline_a` has exactly `N` entries, every index replayed and every index
`move_to + i` of the window lies below `L`, and the result does not depend on
what lies outside the move list. -/
theorem train_cut_in_range (C : Collab Coord State AI Rng Reward Feat Action)
    (B : RWBuffer Buf Reward) (wild : Nat → Coord) (done : Bool)
    (d : Driver Coord State AI Rng) (b : Buf) (hai : d._ai = none)
    (hN : 1 ≤ d._options.num_future_actions)
    (hL : d._options.num_future_actions ≤ (C.sgfstr2coords (B.sample b).1.content).length)
    (hsz : (C.sgfstr2coords (B.sample b).1.content).length < 2 ^ 64) :
    ∃ d1 b1 gs move_to,
      Act C B wild done d b = .ok (d1, b1, [Event.sendDataWaitReply gs]) ∧
      cutModulus (C.sgfstr2coords (B.sample b).1.content).length d._options.num_future_actions =
        (C.sgfstr2coords (B.sample b).1.content).length - d._options.num_future_actions + 1 ∧
      move_to = (C.rngNext d._rng).1 %
        ((C.sgfstr2coords (B.sample b).1.content).length - d._options.num_future_actions + 1) ∧
      move_to ≤ (C.sgfstr2coords (B.sample b).1.content).length - d._options.num_future_actions ∧
      gs.offline_a.length = d._options.num_future_actions ∧
      d1._state = replay C (C.Reset d._state)
        ((replayIndices move_to).map (readMove (C.sgfstr2coords (B.sample b).1.content) wild)) ∧
      gs.offline_a = (windowIndices move_to d._options.num_future_actions).map
        (fun i => C.Coord2Action d1._state gs.aug_code
          (readMove (C.sgfstr2coords (B.sample b).1.content) wild i)) ∧
      (∀ i ∈ replayIndices move_to, i < (C.sgfstr2coords (B.sample b).1.content).length) ∧
      (∀ i ∈ windowIndices move_to d._options.num_future_actions,
        i < (C.sgfstr2coords (B.sample b).1.content).length) ∧
      (∀ wild2 : Nat → Coord, Act C B wild2 done d b = Act C B wild done d b) := by
  have hm := cutModulus_of_le _ _ hN hL hsz
  have hlt : (C.rngNext d._rng).1 %
      ((C.sgfstr2coords (B.sample b).1.content).length - d._options.num_future_actions + 1) <
      (C.sgfstr2coords (B.sample b).1.content).length - d._options.num_future_actions + 1 :=
    Nat.mod_lt _ (Nat.succ_pos _)
  have hrep : ∀ i ∈ replayIndices ((C.rngNext d._rng).1 %
      ((C.sgfstr2coords (B.sample b).1.content).length - d._options.num_future_actions + 1)),
      i < (C.sgfstr2coords (B.sample b).1.content).length := by
    intro i hi
    simp only [replayIndices, List.mem_range] at hi
    omega
  have hwin : ∀ i ∈ windowIndices ((C.rngNext d._rng).1 %
      ((C.sgfstr2coords (B.sample b).1.content).length - d._options.num_future_actions + 1))
      d._options.num_future_actions,
      i < (C.sgfstr2coords (B.sample b).1.content).length := by
    intro i hi
    have := mem_windowIndices _ _ _ hi
    omega
  have hA : ∀ w : Nat → Coord, Act C B w done d b =
      .ok ({ d with
              _state := replay C (C.Reset d._state)
                ((replayIndices ((C.rngNext d._rng).1 %
                  ((C.sgfstr2coords (B.sample b).1.content).length -
                    d._options.num_future_actions + 1))).map
                  (readMove (C.sgfstr2coords (B.sample b).1.content) w)),
              _rng := (C.rngNext (C.rngNext d._rng).2).2 },
           (B.sample b).2,
           [Event.sendDataWaitReply
             { move_idx := C.GetPly (replay C (C.Reset d._state)
                ((replayIndices ((C.rngNext d._rng).1 %
                  ((C.sgfstr2coords (B.sample b).1.content).length -
                    d._options.num_future_actions + 1))).map
                  (readMove (C.sgfstr2coords (B.sample b).1.content) w)))
               winner := (B.sample b).1.reward
               aug_code := (C.rngNext (C.rngNext d._rng).2).1 % 8
               s := C.Extract (replay C (C.Reset d._state)
                ((replayIndices ((C.rngNext d._rng).1 %
                  ((C.sgfstr2coords (B.sample b).1.content).length -
                    d._options.num_future_actions + 1))).map
                  (readMove (C.sgfstr2coords (B.sample b).1.content) w)))
                ((C.rngNext (C.rngNext d._rng).2).1 % 8)
               offline_a := (windowIndices ((C.rngNext d._rng).1 %
                  ((C.sgfstr2coords (B.sample b).1.content).length -
                    d._options.num_future_actions + 1)) d._options.num_future_actions).map
                 (fun i => C.Coord2Action (replay C (C.Reset d._state)
                    ((replayIndices ((C.rngNext d._rng).1 %
                      ((C.sgfstr2coords (B.sample b).1.content).length -
                        d._options.num_future_actions + 1))).map
                      (readMove (C.sgfstr2coords (B.sample b).1.content) w)))
                    ((C.rngNext (C.rngNext d._rng).2).1 % 8)
                    (readMove (C.sgfstr2coords (B.sample b).1.content) w i)) }]) := by
    intro w
    rw [Act_train C B w done d b hai]
    simp only [actTrain, hm]
    rw [if_neg (Nat.succ_ne_zero _)]
  have hread : ∀ (w : Nat → Coord) (l : List Nat),
      (∀ i ∈ l, i < (C.sgfstr2coords (B.sample b).1.content).length) →
      l.map (readMove (C.sgfstr2coords (B.sample b).1.content) w) =
        l.map (readMove (C.sgfstr2coords (B.sample b).1.content) wild) := by
    intro w l hl
    apply List.map_congr_left
    intro i hi
    rw [readMove_of_lt _ w i (hl i hi), readMove_of_lt _ wild i (hl i hi)]
  refine ⟨_, _, _, _, hA wild, hm, rfl, Nat.lt_succ_iff.mp hlt, ?_, rfl, rfl, hrep, hwin, ?_⟩
  · simp [windowIndices]
  · intro w
    rw [hA w, hA wild, hread w _ hrep]
    have hw : ∀ st code, (windowIndices ((C.rngNext d._rng).1 %
        ((C.sgfstr2coords (B.sample b).1.content).length - d._options.num_future_actions + 1))
        d._options.num_future_actions).map
        (fun i => C.Coord2Action st code
          (readMove (C.sgfstr2coords (B.sample b).1.content) w i)) =
        (windowIndices ((C.rngNext d._rng).1 %
        ((C.sgfstr2coords (B.sample b).1.content).length - d._options.num_future_actions + 1))
        d._options.num_future_actions).map
        (fun i => C.Coord2Action st code
          (readMove (C.sgfstr2coords (B.sample b).1.content) wild i)) := by
      intro st code
      apply List.map_congr_left
      intro i hi
      rw [readMove_of_lt _ w i (hwin i hi), readMove_of_lt _ wild i (hwin i hi)]
    rw [hw]

/-- Witness for C5: a stored record of 10 moves and a
window of 3: the modulus is 8, so the cut is one of 0, ..., 7. -/
theorem train_cut_in_range_witness :
    Sample.trainDriver._ai = none ∧ 1 ≤ Sample.trainDriver._options.num_future_actions ∧
    ∃ d1 b1 gs move_to,
      Act (Sample.collab 19) (Sample.buffer true) (fun _ => 0) false Sample.trainDriver
        [{ game_id := 0, reward := 1, content := "abcdefghij" }] =
        .ok (d1, b1, [Event.sendDataWaitReply gs]) ∧
      cutModulus 10 3 = 8 ∧ move_to ≤ 7 ∧ gs.offline_a.length = 3 := by
  refine ⟨rfl, by decide, ?_⟩
  obtain ⟨d1, b1, gs, move_to, h1, h2, _, h4, h5, _⟩ :=
    train_cut_in_range (Sample.collab 19) (Sample.buffer true) (fun _ => 0) false
      Sample.trainDriver [{ game_id := 0, reward := 1, content := "abcdefghij" }] rfl
      (by decide) (by decide) (by decide)
  exact ⟨d1, b1, gs, move_to, h1, h2, h4, h5⟩

theorem cutModulus_of_short (L N : Nat) (hshort : L + 1 < N) (hN : N < 2 ^ 64) :
    cutModulus L N = 2 ^ 64 - (N - L - 1) := by
  unfold cutModulus
  have h64 : (2 : Nat) ^ 64 = 18446744073709551616 := by norm_num
  rw [h64] at hN ⊢
  omega

/-- For any collaborators: on a record with fewer than `N - 1` decoded moves the
training step returns normally and sends a sample of `N` targets, computed with
the wrapped modulus; at least one target index lies outside the move list. -/
theorem actTrain_short_record_sends (C : Collab Coord State AI Rng Reward Feat Action)
    (B : RWBuffer Buf Reward) (wild : Nat → Coord) (done : Bool)
    (d : Driver Coord State AI Rng) (b : Buf) (hai : d._ai = none)
    (hshort : (C.sgfstr2coords (B.sample b).1.content).length + 1 <
      d._options.num_future_actions)
    (hN : d._options.num_future_actions < 2 ^ 64) :
    ∃ d1 b1 gs, Act C B wild done d b = .ok (d1, b1, [Event.sendDataWaitReply gs]) ∧
      gs.offline_a.length = d._options.num_future_actions ∧
      ∀ move_to, ∃ i ∈ windowIndices move_to d._options.num_future_actions,
        (C.sgfstr2coords (B.sample b).1.content).length ≤ i := by
  have hm := cutModulus_of_short _ _ hshort hN
  have h64 : (2 : Nat) ^ 64 = 18446744073709551616 := by norm_num
  have hne : cutModulus (C.sgfstr2coords (B.sample b).1.content).length
      d._options.num_future_actions ≠ 0 := by
    rw [hm, h64]
    rw [h64] at hN
    omega
  rw [Act_train C B wild done d b hai]
  simp only [actTrain]
  rw [if_neg hne]
  refine ⟨_, _, _, rfl, by simp [windowIndices], fun move_to => ?_⟩
  refine ⟨move_to + (d._options.num_future_actions - 1), ?_, by omega⟩
  simp only [windowIndices, List.mem_map, List.mem_range]
  exact ⟨d._options.num_future_actions - 1, by omega, rfl⟩

/-- C6 on a short record: window 3, stored record of one move.  The `size_t`
modulus wraps to `2 ^ 64 - 1`, the cut is the generator's value 5, the step
returns normally and sends a sample; the moves replayed at indices 1..4 and the
three targets at indices 5, 6, 7 are read outside the one-element move list. -/
theorem short_record_sample_is_sent :
    ((Sample.collab 19).sgfstr2coords "a").length = 1 ∧
    Sample.trainDriver._options.num_future_actions = 3 ∧
    cutModulus 1 3 = 2 ^ 64 - 1 ∧
    windowIndices 5 3 = [5, 6, 7] ∧
    Act (Sample.collab 19) (Sample.buffer true) (fun i => i + 100) false Sample.trainDriver
      [{ game_id := 0, reward := 1, content := "a" }] =
      .ok ({ Sample.trainDriver with _state := [97, 101, 102, 103, 104], _rng := 7 },
           [{ game_id := 0, reward := 1, content := "a" }],
           [Event.sendDataWaitReply
             { move_idx := 5, winner := 1, aug_code := 6, s := 11,
               offline_a := [8 * 105 + 6, 8 * 106 + 6, 8 * 107 + 6] }]) := by
  refine ⟨by decide, rfl, by decide, by decide, ?_⟩
  rw [Act_train _ _ _ _ _ _ rfl]
  have hm : cutModulus 1 3 = 18446744073709551615 := by decide
  simp [actTrain, Sample.collab, Sample.buffer, Sample.trainDriver, Sample.trainOptions, mk,
    seedOf, hm, replay, replayIndices, windowIndices, readMove, Sample.forward, List.range_succ]

end Training

/-! ## Construction and initialization -/

section Setup

variable {Coord State AI Rng Reward Feat Action Buf : Type}

theorem runActs_selfplay_ai (C : Collab Coord State AI Rng Reward Feat Action)
    (B : RWBuffer Buf Reward) (wild : Nat → Coord) (signals : List Bool) :
    ∀ (d : Driver Coord State AI Rng) (b : Buf), d._ai.isSome = true →
      ∃ d1 b1 ev ai1, runActs C B wild signals d b = .ok (d1, b1, ev) ∧ d1._ai = some ai1 := by
  induction signals with
  | nil =>
    intro d b hai
    obtain ⟨ai, h⟩ := Option.isSome_iff_exists.mp hai
    exact ⟨d, b, [], ai, rfl, h⟩
  | cons done rest ih =>
    intro d b hai
    obtain ⟨ai, h⟩ := Option.isSome_iff_exists.mp hai
    have hA := Act_selfplay C B wild done d ai b h
    have hsome : (actSelfPlay C B done d ai b).1._ai.isSome = true := by
      by_cases hr : restartTest C d ai done
      · rw [actSelfPlay_restart C B done d ai b hr]; rfl
      · rw [actSelfPlay_continue C B done d ai b hr]; rfl
    generalize actSelfPlay C B done d ai b = res at hA hsome
    obtain ⟨dA, bA, evA⟩ := res
    obtain ⟨d1, b1, ev, ai1, hrun, hai1⟩ := ih dA bA hsome
    refine ⟨d1, b1, evA ++ ev, ai1, ?_, hai1⟩
    rw [runActs_cons C B wild rest done d dA b bA evA hA, hrun]

theorem actTrain_ai (C : Collab Coord State AI Rng Reward Feat Action)
    (B : RWBuffer Buf Reward) (wild : Nat → Coord)
    (d d1 : Driver Coord State AI Rng) (b b1 : Buf)
    (ev : List (Event Coord Reward Feat Action))
    (h : actTrain C B wild d b = .ok (d1, b1, ev)) : d1._ai = d._ai := by
  simp only [actTrain] at h
  split at h
  · simp at h
  · simp only [Except.ok.injEq, Prod.mk.injEq] at h
    rw [← h.1]

theorem runActs_train_ai (C : Collab Coord State AI Rng Reward Feat Action)
    (B : RWBuffer Buf Reward) (wild : Nat → Coord) (signals : List Bool) :
    ∀ (d d1 : Driver Coord State AI Rng) (b b1 : Buf)
      (ev : List (Event Coord Reward Feat Action)), d._ai = none →
      runActs C B wild signals d b = .ok (d1, b1, ev) → d1._ai = none := by
  induction signals with
  | nil =>
    intro d d1 b b1 ev hai h
    simp only [runActs, Except.ok.injEq, Prod.mk.injEq] at h
    rw [← h.1]; exact hai
  | cons done rest ih =>
    intro d d1 b b1 ev hai h
    cases hA : Act C B wild done d b with
    | error e => simp [runActs, hA] at h
    | ok r =>
      obtain ⟨d3, b3, ev3⟩ := r
      rw [runActs_cons C B wild rest done d d3 b b3 ev3 hA] at h
      have h3 : d3._ai = none := by
        rw [Act_train C B wild done d b hai] at hA
        rw [actTrain_ai C B wild d d3 b b3 ev3 hA, hai]
      cases hR : runActs C B wild rest d3 b3 with
      | error e => simp [hR] at h
      | ok r2 =>
        obtain ⟨d4, b4, ev4⟩ := r2
        simp only [hR, Except.ok.injEq, Prod.mk.injEq] at h
        rw [← h.1]
        exact ih d3 d4 b3 b4 ev4 h3 hR

/-- C8: `Init` on a constructed driver throws exactly when the mode is neither
"selfplay" nor "train".  With "selfplay" it returns with `_ai` bound to the
tree-search agent if `use_mcts` and to the direct-inference agent otherwise, and
every later `Act` runs the generation branch; with "train" it returns the
driver unchanged, `_ai` null, and every later `Act` runs the training branch. -/
theorem Init_throws_iff_unknown_mode (C : Collab Coord State AI Rng Reward Feat Action)
    (B : RWBuffer Buf Reward) (wild : Nat → Coord)
    (game_idx : Int) (options : GameOptions) (s0 : State) :
    ((∃ e, Init C (mk C game_idx options s0) = .error e) ↔
      (options.mode ≠ "selfplay" ∧ options.mode ≠ "train")) ∧
    (options.mode = "selfplay" →
      ∃ d, Init C (mk C game_idx options s0) = .ok d ∧
        d = { mk C game_idx options s0 with
              _ai := some (if options.use_mcts then C.newMCTSGoAI else C.newDirectPredictAI) } ∧
        ∀ (signals : List Bool) (b : Buf),
          ∃ d1 b1 ev ai1, runActs C B wild signals d b = .ok (d1, b1, ev) ∧
            d1._ai = some ai1 ∧
            ∀ done, Act C B wild done d1 b1 = .ok (actSelfPlay C B done d1 ai1 b1)) ∧
    (options.mode = "train" →
      Init C (mk C game_idx options s0) = .ok (mk C game_idx options s0) ∧
      (mk C game_idx options s0)._ai = none ∧
      ∀ (signals : List Bool) (b : Buf) d1 b1 ev,
        runActs C B wild signals (mk C game_idx options s0) b = .ok (d1, b1, ev) →
          d1._ai = none ∧ ∀ done, Act C B wild done d1 b1 = actTrain C B wild d1 b1) := by
  refine ⟨?_, ?_, ?_⟩
  · by_cases h1 : options.mode = "selfplay"
    · by_cases hm : options.use_mcts = true <;> simp [Init, mk, h1, hm]
    · by_cases h2 : options.mode = "train" <;> simp [Init, mk, h1, h2]
  · intro h1
    refine ⟨_, ?_, rfl, ?_⟩
    · by_cases hm : options.use_mcts = true <;> simp [Init, mk, h1, hm]
    · intro signals b
      obtain ⟨d1, b1, ev, ai1, hrun, hai1⟩ :=
        runActs_selfplay_ai C B wild signals
          { mk C game_idx options s0 with
            _ai := some (if options.use_mcts then C.newMCTSGoAI else C.newDirectPredictAI) }
          b rfl
      exact ⟨d1, b1, ev, ai1, hrun, hai1, fun done => Act_selfplay C B wild done d1 ai1 b1 hai1⟩
  · intro h2
    have hne : options.mode ≠ "selfplay" := by rw [h2]; decide
    refine ⟨by simp [Init, mk, h2], rfl, ?_⟩
    intro signals b d1 b1 ev hrun
    have hnone := runActs_train_ai C B wild signals _ d1 b b1 ev rfl hrun
    exact ⟨hnone, fun done => Act_train C B wild done d1 b1 hnone⟩

/-- Witness for C8: mode "selfplay" without
tree search binds the direct-inference agent, mode "train" binds none, and
mode "play" throws. -/
theorem Init_throws_iff_unknown_mode_witness :
    Sample.selfplayOptions.mode = "selfplay" ∧ Sample.trainOptions.mode = "train" ∧
    (∃ d, Init (Sample.collab 19) (mk (Sample.collab 19) 0 Sample.selfplayOptions []) = .ok d ∧
      d._ai = some (Sample.collab 19).newDirectPredictAI) ∧
    Init (Sample.collab 19) (mk (Sample.collab 19) 0 Sample.trainOptions []) =
      .ok (mk (Sample.collab 19) 0 Sample.trainOptions []) ∧
    ∃ e, Init (Sample.collab 19)
      (mk (Sample.collab 19) 0 { Sample.trainOptions with mode := "play" } []) = .error e := by
  have h1 := Init_throws_iff_unknown_mode (Sample.collab 19) (Sample.buffer true) (fun _ => 0)
    0 Sample.selfplayOptions []
  have h2 := Init_throws_iff_unknown_mode (Sample.collab 19) (Sample.buffer true) (fun _ => 0)
    0 Sample.trainOptions []
  have h3 := Init_throws_iff_unknown_mode (Sample.collab 19) (Sample.buffer true) (fun _ => 0)
    0 { Sample.trainOptions with mode := "play" } []
  refine ⟨rfl, rfl, ?_, (h2.2.2 rfl).1, h3.1.mpr ⟨by decide, by decide⟩⟩
  obtain ⟨d, hd, hdef, _⟩ := h1.2.1 rfl
  exact ⟨d, hd, by rw [hdef]; rfl⟩

theorem insertedRecords_append (ev1 ev2 : List (Event Coord Reward Feat Action)) :
    insertedRecords (ev1 ++ ev2) = insertedRecords ev1 ++ insertedRecords ev2 := by
  simp [insertedRecords, List.filterMap_append]

/-- Two drivers that agree on slot, generator, agent, state and moves take the
same generation step: they agree again afterwards and offer the same records,
whatever their buffers answer. -/
theorem actSelfPlay_agree {Buf2 : Type} (C : Collab Coord State AI Rng Reward Feat Action)
    (B : RWBuffer Buf Reward) (B2 : RWBuffer Buf2 Reward) (done : Bool)
    (d e : Driver Coord State AI Rng) (ai : AI) (b : Buf) (b2 : Buf2)
    (hidx : d._game_idx = e._game_idx) (hrng : d._rng = e._rng)
    (hst : d._state = e._state) (hmv : d._moves = e._moves) :
    (actSelfPlay C B done d ai b).1._game_idx = (actSelfPlay C B2 done e ai b2).1._game_idx ∧
    (actSelfPlay C B done d ai b).1._rng = (actSelfPlay C B2 done e ai b2).1._rng ∧
    (actSelfPlay C B done d ai b).1._ai = (actSelfPlay C B2 done e ai b2).1._ai ∧
    (actSelfPlay C B done d ai b).1._ai.isSome = true ∧
    (actSelfPlay C B done d ai b).1._state = (actSelfPlay C B2 done e ai b2).1._state ∧
    (actSelfPlay C B done d ai b).1._moves = (actSelfPlay C B2 done e ai b2).1._moves ∧
    insertedRecords (actSelfPlay C B done d ai b).2.2 =
      insertedRecords (actSelfPlay C B2 done e ai b2).2.2 := by
  by_cases hr : restartTest C d ai done
  · have hr2 : restartTest C e ai done := by
      simp only [restartTest, ← hst]
      exact hr
    rw [actSelfPlay_restart C B done d ai b hr, actSelfPlay_restart C B2 done e ai b2 hr2]
    simp only [insertedRecords_restart_only, hidx, hrng, hst, hmv]
    exact ⟨trivial, trivial, trivial, rfl, trivial, trivial, trivial⟩
  · have hr2 : ¬ restartTest C e ai done := by
      simp only [restartTest, ← hst]
      exact hr
    rw [actSelfPlay_continue C B done d ai b hr, actSelfPlay_continue C B2 done e ai b2 hr2]
    simp only [hidx, hrng, hst, hmv]
    exact ⟨trivial, trivial, trivial, rfl, trivial, trivial, trivial⟩

theorem runActs_agree {Buf2 : Type} (C : Collab Coord State AI Rng Reward Feat Action)
    (B : RWBuffer Buf Reward) (B2 : RWBuffer Buf2 Reward) (wild wild2 : Nat → Coord)
    (signals : List Bool) :
    ∀ (d e : Driver Coord State AI Rng) (b : Buf) (b2 : Buf2),
      d._game_idx = e._game_idx → d._rng = e._rng → d._ai = e._ai → d._ai.isSome = true →
      d._state = e._state → d._moves = e._moves →
      ∃ d1 b1 ev1 e1 c1 ev2,
        runActs C B wild signals d b = .ok (d1, b1, ev1) ∧
        runActs C B2 wild2 signals e b2 = .ok (e1, c1, ev2) ∧
        insertedRecords ev1 = insertedRecords ev2 := by
  induction signals with
  | nil =>
    intro d e b b2 _ _ _ _ _ _
    exact ⟨d, b, [], e, b2, [], rfl, rfl, rfl⟩
  | cons done rest ih =>
    intro d e b b2 hidx hrng hai hsome hst hmv
    obtain ⟨ai, h⟩ := Option.isSome_iff_exists.mp hsome
    have hA := Act_selfplay C B wild done d ai b h
    have hE := Act_selfplay C B2 wild2 done e ai b2 (hai ▸ h)
    have hag := actSelfPlay_agree C B B2 done d e ai b b2 hidx hrng hst hmv
    generalize actSelfPlay C B done d ai b = res at hA hag
    generalize actSelfPlay C B2 done e ai b2 = res2 at hE hag
    obtain ⟨dA, bA, evA⟩ := res
    obtain ⟨eA, cA, evE⟩ := res2
    obtain ⟨g1, g2, g3, g4, g5, g6, g7⟩ := hag
    obtain ⟨d1, b1, ev1, e1, c1, ev2, hr1, hr2, hrec⟩ := ih dA eA bA cA g1 g2 g3 g4 g5 g6
    refine ⟨d1, b1, evA ++ ev1, e1, c1, evE ++ ev2, ?_, ?_, ?_⟩
    · rw [runActs_cons C B wild rest done d dA b bA evA hA, hr1]
    · rw [runActs_cons C B2 wild2 rest done e eA b2 cA evE hE, hr2]
    · rw [insertedRecords_append, insertedRecords_append, g7, hrec]

/-- C9: the constructor's seed is `options.seed` when that is non-zero,
whatever the slot, and `get_seed(game_idx)` when it is zero.  Two drivers built
for the same slot with the same seed option and the same agent choice, run in
generation mode over the same agent, board and signals, both return and offer
the same sequence of records, whatever else their options say and whatever
their buffers answer. -/
theorem seed_and_records_deterministic {Buf2 : Type}
    (C : Collab Coord State AI Rng Reward Feat Action)
    (B : RWBuffer Buf Reward) (B2 : RWBuffer Buf2 Reward) (wild wild2 : Nat → Coord)
    (game_idx : Int) (o1 o2 : GameOptions) (s0 : State)
    (signals : List Bool) (b : Buf) (b2 : Buf2)
    (hm1 : o1.mode = "selfplay") (hm2 : o2.mode = "selfplay")
    (hmcts : o1.use_mcts = o2.use_mcts) (hseed : o1.seed = o2.seed) :
    (mk C game_idx o1 s0)._seed = (if o1.seed = 0 then C.get_seed game_idx else o1.seed) ∧
    (o1.seed ≠ 0 → ∀ idx2 : Int, (mk C idx2 o1 s0)._seed = o1.seed) ∧
    (mk C game_idx o1 s0)._seed = (mk C game_idx o2 s0)._seed ∧
    (mk C game_idx o1 s0)._rng = C.rngSeed (mk C game_idx o1 s0)._seed ∧
    ∃ d e, Init C (mk C game_idx o1 s0) = .ok d ∧ Init C (mk C game_idx o2 s0) = .ok e ∧
      ∃ d1 b1 ev1 e1 c1 ev2,
        runActs C B wild signals d b = .ok (d1, b1, ev1) ∧
        runActs C B2 wild2 signals e b2 = .ok (e1, c1, ev2) ∧
        insertedRecords ev1 = insertedRecords ev2 := by
  refine ⟨rfl, ?_, ?_, rfl, ?_⟩
  · intro hne idx2
    simp [mk, seedOf, hne]
  · simp [mk, seedOf, hseed]
  · have hI1 : Init C (mk C game_idx o1 s0) = .ok { mk C game_idx o1 s0 with
        _ai := some (if o1.use_mcts then C.newMCTSGoAI else C.newDirectPredictAI) } := by
      by_cases hm : o1.use_mcts = true <;> simp [Init, mk, hm1, hm]
    have hI2 : Init C (mk C game_idx o2 s0) = .ok { mk C game_idx o2 s0 with
        _ai := some (if o2.use_mcts then C.newMCTSGoAI else C.newDirectPredictAI) } := by
      by_cases hm : o2.use_mcts = true <;> simp [Init, mk, hm2, hm]
    refine ⟨_, _, hI1, hI2, ?_⟩
    apply runActs_agree C B B2 wild wild2 signals
    · rfl
    · simp [mk, seedOf, hseed]
    · simp [hmcts]
    · rfl
    · rfl
    · rfl

/-- Witness for C9: slot 0 with seed 42, once quiet and once verbose with
another window, one buffer accepting and one rejecting, five steps.  The agent
plays 3, 2, 1 and then the illegal move 0 twice, so both drivers finalize twice
and offer the same two records: slot 0 with reward 45 and the three moves, then
slot 1 with reward 43 and no move. -/
theorem seed_and_records_deterministic_witness :
    Sample.selfplayOptions.mode = "selfplay" ∧
    (mk (Sample.collab 19) 0 Sample.selfplayOptions [])._seed = 42 ∧
    ∃ d e d1 b1 ev1 e1 c1 ev2,
      Init (Sample.collab 19) (mk (Sample.collab 19) 0 Sample.selfplayOptions []) = .ok d ∧
      Init (Sample.collab 19) (mk (Sample.collab 19) 0
        { Sample.selfplayOptions with verbose := true, num_future_actions := 1 } []) = .ok e ∧
      runActs (Sample.collab 19) (Sample.buffer true) (fun _ => 0)
        [false, false, true, false, true] d [] = .ok (d1, b1, ev1) ∧
      runActs (Sample.collab 19) (Sample.buffer false) (fun _ => 1)
        [false, false, true, false, true] e [] = .ok (e1, c1, ev2) ∧
      insertedRecords ev1 = insertedRecords ev2 ∧
      insertedRecords ev2 =
        [{ game_id := 0, reward := 45, content := (Sample.collab 19).coords2sgfstr [3, 2, 1] },
         { game_id := 1, reward := 43, content := (Sample.collab 19).coords2sgfstr [] }] := by
  obtain ⟨h1, _, _, _, d, e, hd, he, d1, b1, ev1, e1, c1, ev2, hr1, hr2, hrec⟩ :=
    seed_and_records_deterministic (Sample.collab 19) (Sample.buffer true) (Sample.buffer false)
      (fun _ => 0) (fun _ => 1) 0 Sample.selfplayOptions
      { Sample.selfplayOptions with verbose := true, num_future_actions := 1 } []
      [false, false, true, false, true] [] [] rfl rfl rfl rfl
  refine ⟨rfl, by rw [h1]; rfl, d, e, d1, b1, ev1, e1, c1, ev2, hd, he, hr1, hr2, hrec, ?_⟩
  have he0 : Init (Sample.collab 19) (mk (Sample.collab 19) 0
      { Sample.selfplayOptions with verbose := true, num_future_actions := 1 } []) =
      .ok { mk (Sample.collab 19) 0
          { Sample.selfplayOptions with verbose := true, num_future_actions := 1 } [] with
        _ai := some [3, 2, 1] } := by
    simp [Init, mk, Sample.selfplayOptions, Sample.collab]
  rw [he0] at he
  simp only [Except.ok.injEq] at he
  subst he
  have hconc : (match runActs (Sample.collab 19) (Sample.buffer false) (fun _ => 1)
      [false, false, true, false, true]
      { mk (Sample.collab 19) 0
          { Sample.selfplayOptions with verbose := true, num_future_actions := 1 } [] with
        _ai := some [3, 2, 1] } [] with
      | .ok (_, _, ev) => insertedRecords ev
      | .error _ => []) =
      [{ game_id := 0, reward := 45, content := (Sample.collab 19).coords2sgfstr [3, 2, 1] },
       { game_id := 1, reward := 43, content := (Sample.collab 19).coords2sgfstr [] }] := by
    rfl
  rw [hr2] at hconc
  exact hconc

end Setup

end GoGameSelfPlay
